import Mathlib

/-!
Verification of the subtitle acquisition / translation / caching pipeline of the
stremio-hebrew-subtitles add-on (src/index.js), as a shallow embedding in Lean.

Modelling conventions:
* Subtitle text is a Lean `String`; character-level operations work on `String.data`
  (a `List Char`) through small structurally-recursive helpers so that every
  definition evaluates inside the kernel.
* Fallible external calls (the subtitle catalog, the HTTP download, the
  translation service, the filesystem write) are modelled as functions returning
  `Option`; `none` covers both an error response and a thrown-and-caught
  exception, which the source treats identically (every catch returns null).
* The filesystem behind the `subs` cache directory is a map from file name to
  file content, `String → Option String`.
* The handler is instrumented: besides its response and the updated filesystem it
  reports which pipeline stages ran, which ids were submitted to the catalog
  search, and which payloads were submitted to the translation service.  The
  instrumentation mirrors the sequence of awaited calls in the source.
-/

/-- Whitespace test covering the characters relevant to the embedded documents,
matching what JavaScript `String.prototype.trim` strips on them. -/
def isWsChar (c : Char) : Bool := c = ' ' || c = '\t' || c = '\n' || c = '\r'

/-- Trim leading and trailing whitespace from a character list. -/
def trimL (l : List Char) : List Char :=
  ((l.dropWhile isWsChar).reverse.dropWhile isWsChar).reverse

/-- The JavaScript check `text.trim().length === 0` on a string. -/
def isBlankStr (s : String) : Bool := (trimL s.data).isEmpty

/-- Split a character list at every occurrence of `sep` (JavaScript
`String.prototype.split` semantics: empty segments are kept, the empty input
yields one empty segment). -/
def splitOnCharAux (sep : Char) : List Char → List Char → List (List Char)
  | [], cur => [cur.reverse]
  | c :: cs, cur =>
    if c = sep then cur.reverse :: splitOnCharAux sep cs []
    else splitOnCharAux sep cs (c :: cur)

/-- Entry point of `splitOnCharAux` with an empty accumulator. -/
def splitOnChar (sep : Char) (l : List Char) : List (List Char) :=
  splitOnCharAux sep l []

/-- Whether `pat` is a prefix of `l`. -/
def startsWithL : List Char → List Char → Bool
  | _, [] => true
  | [], _ :: _ => false
  | c :: cs, p :: ps => c = p && startsWithL cs ps

/-- Whether `pat` occurs as a contiguous substring of `l`. -/
def containsSubL : List Char → List Char → Bool
  | [], pat => pat.isEmpty
  | c :: cs, pat => startsWithL (c :: cs) pat || containsSubL cs pat

/-- Whether a subtitle text contains the SRT timing-separator token. -/
def hasTimingSep (s : String) : Bool := containsSubL s.data ['-', '-', '>']

/-- Number of lines of a subtitle text (newline-separated). -/
def lineCountS (s : String) : Nat := (splitOnChar '\n' s.data).length

/-- Group the lines of a document into subtitle entries: maximal runs of
non-empty lines, delimited by blank lines. -/
def groupEntriesAux : List (List Char) → List (List Char) → List (List (List Char))
  | [], cur => if cur.isEmpty then [] else [cur.reverse]
  | l :: ls, cur =>
    if l.isEmpty then
      if cur.isEmpty then groupEntriesAux ls []
      else cur.reverse :: groupEntriesAux ls []
    else groupEntriesAux ls (l :: cur)

/-- The subtitle entries of a text, as groups of lines. -/
def entriesOf (s : String) : List (List (List Char)) :=
  groupEntriesAux (splitOnChar '\n' s.data) []

/-- Number of blank-line-delimited subtitle entries of a text. -/
def entryCount (s : String) : Nat := (entriesOf s).length

/-- The regex match `id.match(/^(tt\d+)/)` from the handler: the id must start
with `tt` followed by at least one digit; the match is `tt` plus the maximal
leading digit run. -/
def extractImdbL : List Char → Option (List Char)
  | 't' :: 't' :: rest =>
    let ds := rest.takeWhile Char.isDigit
    if ds.isEmpty then none else some ('t' :: 't' :: ds)
  | _ => none

/-- String form of `extractImdbL`. -/
def extractImdb (id : String) : Option String :=
  (extractImdbL id.data).map List.asString

/-- The JavaScript `s.replace('tt', '')`: remove the first (leftmost)
occurrence of the substring `tt`. -/
def replaceFirstTTL : List Char → List Char
  | [] => []
  | 't' :: 't' :: rest => rest
  | c :: rest => c :: replaceFirstTTL rest

/-- String form of `replaceFirstTTL`. -/
def replaceFirstTTs (s : String) : String := (replaceFirstTTL s.data).asString

/-- The handler's `id.replace(/[:.]/g, '_')`: replace every colon and every dot
by an underscore. -/
def sanitizeIdL (l : List Char) : List Char :=
  l.map fun c => if c = ':' || c = '.' then '_' else c

/-- String form of `sanitizeIdL`. -/
def sanitizeId (s : String) : String := (sanitizeIdL s.data).asString

/-- translateToHebrew from src/index.js, with the external chat-completion call
abstracted as `call`.  The source rejects empty or whitespace-only input before
calling the service and otherwise submits the whole text in a single call; the
second component records the payloads submitted to the external service. -/
def translateToHebrewT (call : String → Option String) (text : String) :
    Option String × List String :=
  if isBlankStr text then (none, []) else (call text, [text])

/-- One file entry of a catalog search result (`attributes.files[i]`). -/
structure SubtitleFile where
  file_id : Nat
deriving DecidableEq

/-- The `attributes` object of a catalog search result; `files` is optional to
model the source's `!bestSubtitle.attributes.files` missing-field check. -/
structure SubtitleAttributes where
  files : Option (List SubtitleFile)
deriving DecidableEq

/-- One element of `response.data.data`; `attributes` is optional to model the
source's `!bestSubtitle.attributes` missing-field check. -/
structure CatalogResult where
  attributes : Option SubtitleAttributes
deriving DecidableEq

/-- Body of the `/download` response; `link` is optional to model the source's
`!downloadRes.data.link` check. -/
structure DownloadData where
  link : Option String
deriving DecidableEq

/-- The external OpenSubtitles capability: `search` models the GET on
`/subtitles` (returning `response.data.data`; `none` covers a network error, a
thrown exception, or a missing `data` field) and `download` models the POST on
`/download` (`none` again covering error or missing body). -/
structure Catalog where
  search : String → Option (List CatalogResult)
  download : Nat → Option DownloadData

/-- getEnglishSubtitleFileUrl from src/index.js: search the catalog for the
numeric IMDb id ordered by downloads, take the first result, take its first
file, resolve that file id to a download link.  Every failure path of the
source (empty result list, missing attributes, missing or empty files list,
failed download call, missing link, thrown error) returns `none`; the function
never propagates a fault. -/
def getEnglishSubtitleFileUrl (cat : Catalog) (imdbId : String) : Option String :=
  match cat.search imdbId with
  | none => none
  | some [] => none
  | some (best :: _) =>
    match best.attributes with
    | none => none
    | some attrs =>
      match attrs.files with
      | none => none
      | some [] => none
      | some (f :: _) =>
        match cat.download f.file_id with
        | none => none
        | some d => d.link

/-- The `subs` cache directory, as a map from file name to file content. -/
def FileSystem := String → Option String

/-- The empty cache directory. -/
def fsEmpty : FileSystem := fun _ => none

/-- Overwrite-or-create semantics of `fs.writeFileSync` on the directory map. -/
def fsWrite (fs : FileSystem) (p : String) (content : String) : FileSystem :=
  fun q => if q = p then some content else fs q

/-- The file name `${filenameId}_he.srt` used by saveSubtitleToFile. -/
def subFilePath (filenameId : String) : String := filenameId ++ "_he.srt"

/-- A raw filesystem operation, recorded to observe the mechanism of a write. -/
inductive FsOp where
  | write (path content : String)
  | rename (src dst : String)
deriving DecidableEq

/-- Whether an operation is a rename. -/
def FsOp.isRename : FsOp → Bool
  | .rename _ _ => true
  | .write _ _ => false

/-- Result of saveSubtitleToFile: the updated directory, the return value
(the saved file's base name, or `none` on error) and the sequence of raw
filesystem operations issued. -/
structure SaveOut where
  fs : FileSystem
  ret : Option String
  ops : List FsOp

/-- Last `/`-separated segment of a storage name, as `path.basename`
computes it. -/
def baseNameL : List Char → List Char → List Char
  | [], cur => cur.reverse
  | c :: cs, cur => if c = '/' then baseNameL cs [] else baseNameL cs (c :: cur)

/-- String form of `baseNameL`. -/
def baseName (s : String) : String := (baseNameL s.data []).asString

/-- saveSubtitleToFile from src/index.js: build the target path
`path.join(subsDir, filenameId + "_he.srt")`, ensure the flat cache directory
itself exists, call `fs.writeFileSync` directly on the path, and return
`path.basename(filePath)`; any thrown error is caught and `none` returned.
The write throws when the backend refuses it (modelled by `writeFails`) and
also, with ENOENT, whenever the name contains a path separator: the path then
addresses a subdirectory of the flat cache directory, and no subdirectory is
ever created.  The content is always a string in this model, so the `typeof`
guard never fires.  Exactly one operation is attempted: a direct write to the
final path. -/
def saveSubtitleToFile (writeFails : String → Bool) (fs : FileSystem)
    (content filenameId : String) : SaveOut :=
  let p := subFilePath filenameId
  if p.data.contains '/' || writeFails p then ⟨fs, none, [FsOp.write p content]⟩
  else ⟨fsWrite fs p content, some (baseName p), [FsOp.write p content]⟩

/-- A pipeline stage of the request handler, recorded when its call is made. -/
inductive Stage where
  | resolve
  | fetch
  | translate
  | save
deriving DecidableEq

/-- One element of the `subtitles` array returned to Stremio. -/
structure SubtitleRef where
  id : String
  lang : String
  url : String
deriving DecidableEq

/-- The external world of one request: the catalog, the subtitle download
(`fetchText`, url to body), the translation service (`translateCall`), the
write-failure oracle of the storage backend, and the externally visible base
URL. -/
structure Env where
  cat : Catalog
  fetchText : String → Option String
  translateCall : String → Option String
  writeFails : String → Bool
  baseUrl : String

/-- Instrumented result of one handler call: the `subtitles` array of the
response, the cache directory afterwards, the stages whose external call ran,
the ids submitted to the catalog search, and the payloads submitted to the
translation service. -/
structure HandleOut where
  response : List SubtitleRef
  fs : FileSystem
  calls : List Stage
  queried : List String
  sent : List String

/-- The subtitles handler from src/index.js (builder.defineSubtitlesHandler):
extract `tt`+digits from the raw id (invalid id: empty response); strip the
`tt` prefix and resolve via the catalog (failure: empty response); download the
subtitle body (failure or empty body: empty response); translate (failure:
empty response); save under the sanitized full id (failure: empty response);
otherwise answer with one subtitle reference pointing at the served file.  The
source's try/catch is reflected in every stage returning `Option` and every
`none` mapping to the empty response.  The handler never consults the cache
directory before running the pipeline. -/
def handleSubtitles (env : Env) (fs : FileSystem) (id : String) : HandleOut :=
  match extractImdb id with
  | none => ⟨[], fs, [], [], []⟩
  | some pre =>
    let numeric := replaceFirstTTs pre
    match getEnglishSubtitleFileUrl env.cat numeric with
    | none => ⟨[], fs, [Stage.resolve], [numeric], []⟩
    | some url =>
      match env.fetchText url with
      | none => ⟨[], fs, [Stage.resolve, Stage.fetch], [numeric], []⟩
      | some srt =>
        if srt = "" then ⟨[], fs, [Stage.resolve, Stage.fetch], [numeric], []⟩
        else
          let t := translateToHebrewT env.translateCall srt
          match t.1 with
          | none => ⟨[], fs, [Stage.resolve, Stage.fetch, Stage.translate], [numeric], t.2⟩
          | some heb =>
            let saved := saveSubtitleToFile env.writeFails fs heb (sanitizeId id)
            match saved.ret with
            | none =>
              ⟨[], saved.fs, [Stage.resolve, Stage.fetch, Stage.translate, Stage.save],
                [numeric], t.2⟩
            | some fname =>
              ⟨[⟨"ai-he-" ++ id, "heb", env.baseUrl ++ "/subs/" ++ fname⟩], saved.fs,
                [Stage.resolve, Stage.fetch, Stage.translate, Stage.save], [numeric], t.2⟩

/-- A catalog holding one result with one file, whose download link resolves. -/
def catOne : Catalog where
  search := fun _ => some [⟨some ⟨some [⟨7⟩]⟩⟩]
  download := fun _ => some ⟨some "http://dl/x"⟩

/-- An environment in which every pipeline stage succeeds. -/
def env1 : Env where
  cat := catOne
  fetchText := fun _ => some "1\n00:00:00,000 --> 00:00:01,000\nhi"
  translateCall := fun _ => some "1\n00:00:00,000 --> 00:00:01,000\nheb"
  writeFails := fun _ => false
  baseUrl := "http://localhost:7000"

/-- An environment whose download stage yields a tiny body with no timing
separator. -/
def env2 : Env where
  cat := catOne
  fetchText := fun _ => some "hello"
  translateCall := fun _ => some "x"
  writeFails := fun _ => false
  baseUrl := "http://localhost:7000"

/-- A catalog with an empty result list and no download capability. -/
def catEmpty : Catalog where
  search := fun _ => some []
  download := fun _ => none

/-- One well-formed subtitle entry: index line, timing line, one text line. -/
def entryBlock : List Char := ("1\n00:00:00,000 --> 00:00:01,000\nline").data

/-- A synthetic document of `n` subtitle entries separated by blank lines. -/
def mkDocL : Nat → List Char
  | 0 => []
  | 1 => entryBlock
  | Nat.succ (Nat.succ n) => entryBlock ++ '\n' :: '\n' :: mkDocL (Nat.succ n)

/-- String form of `mkDocL`. -/
def mkDoc (n : Nat) : String := (mkDocL n).asString

/-- The return value of the save step depends only on the write oracle and the
file name, never on the prior directory contents. -/
theorem saveSubtitleToFile_ret (wf : String → Bool) (fs : FileSystem)
    (content k : String) :
    (saveSubtitleToFile wf fs content k).ret =
      if (subFilePath k).data.contains '/' || wf (subFilePath k) then none
      else some (baseName (subFilePath k)) := by
  unfold saveSubtitleToFile
  dsimp only
  split <;> simp_all

/-- Splitting a list that contains no separator yields one segment: the
accumulator followed by the list. -/
theorem splitOnCharAux_no_sep (sep : Char) :
    ∀ (l cur : List Char), (∀ c ∈ l, c ≠ sep) →
      splitOnCharAux sep l cur = [cur.reverse ++ l] := by
  intro l
  induction l with
  | nil => intro cur _; simp [splitOnCharAux]
  | cons c cs ih =>
    intro cur h
    have hc : c ≠ sep := h c (List.mem_cons_self c cs)
    rw [splitOnCharAux, if_neg hc, ih (c :: cur) (fun x hx => h x (List.mem_cons_of_mem c hx))]
    simp

/-- Every digit-free item of a list stays out of `takeWhile Char.isDigit`;
concretely, if all of `ds` are digits and `c` is not, the take stops at `c`. -/
theorem takeWhile_digits_append :
    ∀ (ds : List Char), (∀ c ∈ ds, c.isDigit = true) →
      ∀ (c : Char) (r : List Char), c.isDigit = false →
        (ds ++ c :: r).takeWhile Char.isDigit = ds := by
  intro ds
  induction ds with
  | nil => intro _ c r hc; simp [List.takeWhile, hc]
  | cons d dt ih =>
    intro h c r hc
    have hd : d.isDigit = true := h d (List.mem_cons_self d dt)
    simp only [List.cons_append, List.takeWhile, hd]
    rw [show dt.append (c :: r) = dt ++ c :: r from rfl,
      ih (fun x hx => h x (List.mem_cons_of_mem d hx)) c r hc]

/-- The sanitized form of an id contains no dot: both characters the source
replaces include the dot, and every untouched character was not a dot. -/
theorem sanitizeIdL_no_dot (l : List Char) : ∀ c ∈ sanitizeIdL l, c ≠ '.' := by
  intro c hc
  rcases List.mem_map.mp hc with ⟨a, _, rfl⟩
  by_cases h : a = ':' || a = '.'
  · simp [h]
  · rw [if_neg (by simp [h])]
    simp only [Bool.or_eq_true, decide_eq_true_eq, not_or] at h
    exact h.2

/-- No segment of the suffixed, sanitized storage name can be the parent
directory marker: segments drawn from the sanitized part contain no dot at
all, and the final segment carries the 7-character suffix. -/
theorem seg_of_sanitized_ne_dotdot :
    ∀ (l cur : List Char), (∀ c ∈ l, c ≠ '.') → (∀ c ∈ cur, c ≠ '.') →
      ∀ seg ∈ splitOnCharAux '/' (l ++ ("_he.srt").data) cur, seg ≠ ['.', '.'] := by
  intro l
  induction l with
  | nil =>
    intro cur _ hcur seg hseg hbad
    rw [List.nil_append, splitOnCharAux_no_sep '/' _ cur (by decide)] at hseg
    rw [List.mem_singleton.mp hseg] at hbad
    have hlen := congrArg List.length hbad
    simp [List.length_append] at hlen
  | cons c cs ih =>
    intro cur hl hcur seg hseg
    by_cases hsep : c = '/'
    · subst hsep
      rw [List.cons_append, splitOnCharAux, if_pos rfl] at hseg
      rcases List.mem_cons.mp hseg with rfl | hmem
      · intro hbad
        have hd : '.' ∈ cur.reverse := by rw [hbad]; exact List.mem_cons_self _ _
        exact hcur '.' (List.mem_reverse.mp hd) rfl
      · exact ih [] (fun x hx => hl x (List.mem_cons_of_mem _ hx)) (by simp) seg hmem
    · rw [List.cons_append, splitOnCharAux, if_neg hsep] at hseg
      refine ih (c :: cur) (fun x hx => hl x (List.mem_cons_of_mem _ hx)) ?_ seg hseg
      intro x hx
      rcases List.mem_cons.mp hx with rfl | hx2
      · exact hl x (List.mem_cons_self _ _)
      · exact hcur x hx2

/-- A string containing a non-whitespace character is not blank. -/
theorem not_blank_of_mem {s : String} {c : Char} (hc : c ∈ s.data)
    (hw : isWsChar c = false) : isBlankStr s = false := by
  unfold isBlankStr trimL
  rw [Bool.eq_false_iff]
  intro h
  rw [List.isEmpty_iff, List.reverse_eq_nil_iff, List.dropWhile_eq_nil_iff] at h
  have h2 : ∀ x ∈ s.data.dropWhile isWsChar, isWsChar x := by
    intro x hx
    exact h x (by simpa using hx)
  have h3 : ∀ x ∈ s.data, isWsChar x = true := by
    intro x hx
    rw [← List.takeWhile_append_dropWhile (p := isWsChar) (l := s.data)] at hx
    rcases List.mem_append.mp hx with h4 | h4
    · exact List.mem_takeWhile_imp h4
    · exact h2 x h4
  rw [h3 c hc] at hw
  exact Bool.noConfusion hw

/-- Every nonempty synthetic document contains the digit of its first index
line. -/
theorem one_mem_mkDoc : ∀ n : Nat, '1' ∈ mkDocL (n + 1)
  | 0 => by decide
  | Nat.succ n => by
    rw [show Nat.succ n + 1 = Nat.succ (Nat.succ n) from rfl, mkDocL]
    exact List.mem_append_left _ (by decide)

/-- Nonempty synthetic documents pass the translator's blankness check. -/
theorem mkDoc_not_blank (n : Nat) : isBlankStr (mkDoc (n + 1)) = false :=
  not_blank_of_mem (s := mkDoc (n + 1)) (one_mem_mkDoc n) (by decide)

set_option maxRecDepth 1000000 in
/-- C2 counterexample: a document of 251 entries (1003 lines, above the
1000-line threshold the claim quantifies over) is not split into batches of
100 whole entries: the translation stage submits exactly one payload to the
external service, and that payload holds all 251 entries rather than at most
100. -/
theorem c2_counterexample :
    1000 < lineCountS (mkDoc 251) ∧
    ((translateToHebrewT some (mkDoc 251)).2.map entryCount) = [251] ∧
    ¬ (251 ≤ 100) := by
  have hb : isBlankStr (mkDoc 251) = false := mkDoc_not_blank 250
  have he : entryCount (mkDoc 251) = 251 := by decide
  exact ⟨by decide, by simp [translateToHebrewT, hb, he], by decide⟩

/-- C2 amended: translateToHebrew performs no chunking at all.  Whatever its
size, a non-blank input document is submitted to the external translation call
as one single payload, and an identity translator returns the document
unchanged (hence trivially with the same entry count and order). -/
theorem c2_theorem : ∀ (call : String → Option String) (text : String),
    isBlankStr text = false →
    (translateToHebrewT call text).2 = [text] ∧
    (translateToHebrewT some text).1 = some text := by
  intro call text h
  constructor <;> simp [translateToHebrewT, h]

/-- Witness for the C2 amended theorem at a concrete non-blank document. -/
theorem c2_witness :
    (translateToHebrewT some "hi").2 = ["hi"] ∧
    (translateToHebrewT some "hi").1 = some "hi" :=
  c2_theorem some "hi" (by decide)

/-- C5 counterexample: normalization is not total over the claim's three
example ids — the bare numeric id `0111161` does not normalize to any key (the
`^(tt\d+)` match fails) and the handler answers it with the empty result, even
in an environment where every pipeline stage would succeed; so two inbound ids
differing only in the `tt` prefix do not normalize identically. -/
theorem c5_counterexample :
    extractImdb "0111161" = none ∧
    extractImdb "tt0111161" = some "tt0111161" ∧
    (handleSubtitles env1 fsEmpty "0111161").response = [] := by decide

/-- C5 amended: normalization is defined exactly on ids matching `^tt\d+`:
`tt0111161` and `tt0111161:1:2` both normalize, deterministically, with the
same catalog key `0111161`, and the episode id is distinguished from the bare
movie id in the cache key; the bare numeric id `0111161` is rejected as
invalid. -/
theorem c5_theorem :
    extractImdb "tt0111161" = some "tt0111161" ∧
    extractImdb "tt0111161:1:2" = some "tt0111161" ∧
    replaceFirstTTs "tt0111161" = "0111161" ∧
    sanitizeId "tt0111161" ≠ sanitizeId "tt0111161:1:2" ∧
    extractImdb "0111161" = none := by decide

/-- C7: the resolver takes the catalog's own first-ranked result: an erroneous
or empty search answer yields `none`; a top result with missing attributes or
a missing or empty files list yields `none` with no fall-through to later
results; and the outcome depends only on the top result and the download
capability, not on the rest of the ranked list.  The function is total, so no
failure propagates as a fault. -/
theorem c7_theorem : ∀ (cat : Catalog) (imdbId : String),
    (cat.search imdbId = none → getEnglishSubtitleFileUrl cat imdbId = none) ∧
    (cat.search imdbId = some [] → getEnglishSubtitleFileUrl cat imdbId = none) ∧
    ∀ best rest, cat.search imdbId = some (best :: rest) →
      ((best.attributes = none → getEnglishSubtitleFileUrl cat imdbId = none) ∧
       (∀ attrs, best.attributes = some attrs →
         attrs.files = none ∨ attrs.files = some [] →
         getEnglishSubtitleFileUrl cat imdbId = none) ∧
       (∀ (cat2 : Catalog) (rest2 : List CatalogResult),
         cat2.search imdbId = some (best :: rest2) → cat2.download = cat.download →
         getEnglishSubtitleFileUrl cat2 imdbId = getEnglishSubtitleFileUrl cat imdbId)) := by
  intro cat imdbId
  refine ⟨fun h => by unfold getEnglishSubtitleFileUrl; rw [h],
    fun h => by unfold getEnglishSubtitleFileUrl; rw [h], ?_⟩
  intro best rest hsearch
  refine ⟨fun h => ?_, fun attrs ha hf => ?_, fun cat2 rest2 h2 hdl => ?_⟩
  · unfold getEnglishSubtitleFileUrl
    rw [hsearch]
    dsimp only
    rw [h]
  · unfold getEnglishSubtitleFileUrl
    rw [hsearch]
    dsimp only
    rw [ha]
    dsimp only
    rcases hf with hf | hf <;> rw [hf]
  · unfold getEnglishSubtitleFileUrl
    rw [h2, hsearch]
    dsimp only
    simp only [hdl]

/-- Witness for C7 at a catalog answering with an empty result list. -/
theorem c7_witness : getEnglishSubtitleFileUrl catEmpty "1" = none :=
  (c7_theorem catEmpty "1").2.1 rfl

/-- C8: for every key whose storage name is separator-free and accepted by the
backend, writing the key twice leaves exactly the second content under the
key's single storage location and touches no other location (the overwrite is
total, no versioning). -/
theorem c8_theorem : ∀ (wf : String → Bool) (fs : FileSystem) (c1 c2 k : String),
    (subFilePath k).data.contains '/' = false →
    wf (subFilePath k) = false →
    ((saveSubtitleToFile wf (saveSubtitleToFile wf fs c1 k).fs c2 k).fs (subFilePath k)
        = some c2 ∧
     ∀ p, p ≠ subFilePath k →
       (saveSubtitleToFile wf (saveSubtitleToFile wf fs c1 k).fs c2 k).fs p = fs p) := by
  intro wf fs c1 c2 k hsl h
  have hmem : ¬ '/' ∈ (subFilePath k).data := by simpa using hsl
  have hfs : (saveSubtitleToFile wf (saveSubtitleToFile wf fs c1 k).fs c2 k).fs =
      fsWrite (fsWrite fs (subFilePath k) c1) (subFilePath k) c2 := by
    unfold saveSubtitleToFile
    simp [h, hmem]
  rw [hfs]
  constructor
  · simp [fsWrite]
  · intro p hp
    simp [fsWrite, hp]

/-- Witness for C8: two writes under key `tt9`, the second content wins. -/
theorem c8_witness :
    (saveSubtitleToFile (fun _ => false)
      (saveSubtitleToFile (fun _ => false) fsEmpty "a" "tt9").fs "b" "tt9").fs
      (subFilePath "tt9") = some "b" :=
  (c8_theorem (fun _ => false) fsEmpty "a" "b" "tt9" (by decide) rfl).1

/-- C9 counterexample: a concrete put issues exactly one raw filesystem
operation — a direct write to the final cache path — and no rename, so the
temporary-location-then-rename mechanism the claim requires as a minimum is
absent. -/
theorem c9_counterexample :
    (saveSubtitleToFile (fun _ => false) fsEmpty "abc" "tt1").ops
        = [FsOp.write "tt1_he.srt" "abc"] ∧
    ((saveSubtitleToFile (fun _ => false) fsEmpty "abc" "tt1").ops.any FsOp.isRename)
        = false := by decide

/-- C9 amended: every put issues exactly one raw filesystem operation, a
direct `writeFileSync` to the final path; no temporary location and no rename
are ever used, so the write provides no atomicity mechanism against concurrent
reads. -/
theorem c9_theorem : ∀ (wf : String → Bool) (fs : FileSystem) (content k : String),
    (saveSubtitleToFile wf fs content k).ops = [FsOp.write (subFilePath k) content] := by
  intro wf fs content k
  unfold saveSubtitleToFile
  dsimp only
  split <;> rfl

/-- C6 counterexample: the id `tt1/x` is accepted by the handler's id match,
its sanitized key keeps the path separator `/` — an unsafe character for a
storage file name that the sanitization neither rejects nor transforms — and
the untransformed name is used as the storage location: put attempts the write
at the nested path `tt1/x_he.srt` and then fails with the backend's ENOENT
throw (returning null), not through any sanitization check. -/
theorem c6_counterexample :
    extractImdb "tt1/x" = some "tt1" ∧
    sanitizeId "tt1/x" = "tt1/x" ∧
    '/' ∈ (sanitizeId "tt1/x").data ∧
    (saveSubtitleToFile (fun _ => false) fsEmpty "c" (sanitizeId "tt1/x")).ops
        = [FsOp.write "tt1/x_he.srt" "c"] ∧
    (saveSubtitleToFile (fun _ => false) fsEmpty "c" (sanitizeId "tt1/x")).ret
        = none := by decide

/-- C6 amended: sanitization replaces exactly the colon and the dot by an
underscore; an unsafe path separator is neither rejected nor transformed and
flows untouched into the storage location name, where the write then fails —
the flat cache directory has no subdirectories, so the attempted write throws
and put returns null with the directory unchanged, and no cache entry is ever
created for such an id; and because every dot is removed, no `/`-delimited
segment of the storage name can be the parent-directory marker `..`, so the
attempted path stays lexically inside the cache directory. -/
theorem c6_theorem : ∀ (id : String),
    (∀ seg ∈ splitOnChar '/' (subFilePath (sanitizeId id)).data, seg ≠ ['.', '.']) ∧
    (∀ (wf : String → Bool) (fs : FileSystem) (content : String),
      (subFilePath (sanitizeId id)).data.contains '/' = true →
      (saveSubtitleToFile wf fs content (sanitizeId id)).ret = none ∧
      (saveSubtitleToFile wf fs content (sanitizeId id)).fs = fs) := by
  intro id
  constructor
  · intro seg hseg
    have hdata : (subFilePath (sanitizeId id)).data
        = sanitizeIdL id.data ++ ("_he.srt").data := by
      simp only [subFilePath]
      simp only [sanitizeId]
      simp
      rfl
    rw [splitOnChar, hdata] at hseg
    exact seg_of_sanitized_ne_dotdot (sanitizeIdL id.data) []
      (sanitizeIdL_no_dot id.data) (by simp) seg hseg
  · intro wf fs content hslash
    unfold saveSubtitleToFile
    dsimp only
    rw [if_pos (by rw [hslash]; simp)]
    exact ⟨rfl, rfl⟩

/-- Witness for C6 at the id `tt1/x`: its final storage-name segment is not
`..`, and the put for it fails, leaving the directory unchanged. -/
theorem c6_witness :
    ("x_he.srt").data ≠ ['.', '.'] ∧
    (saveSubtitleToFile (fun _ => false) fsEmpty "c" (sanitizeId "tt1/x")).ret
        = none :=
  ⟨( c6_theorem "tt1/x").1 ("x_he.srt").data (by decide),
   (( c6_theorem "tt1/x").2 (fun _ => false) fsEmpty "c" (by decide)).1⟩

/-- C1 counterexample: in an environment where every stage succeeds, the first
call for `tt1` succeeds, and a second call for the same id against the now
populated cache directory still invokes the resolver and the translator — no
cache check short-circuits the pipeline. -/
theorem c1_counterexample :
    (handleSubtitles env1 fsEmpty "tt1").response ≠ [] ∧
    ((handleSubtitles env1 (handleSubtitles env1 fsEmpty "tt1").fs "tt1").calls.contains
        Stage.resolve) = true ∧
    ((handleSubtitles env1 (handleSubtitles env1 fsEmpty "tt1").fs "tt1").calls.contains
        Stage.translate) = true := by decide

/-- C1 amended: the handler has no cache-check stage at all — its response and
its external calls are independent of the cache directory's contents, and any
successful call (first or repeated) runs the full
resolve-fetch-translate-save pipeline, overwriting the cache entry. -/
theorem c1_theorem : ∀ (env : Env) (fs fs2 : FileSystem) (id : String),
    (handleSubtitles env fs id).response = (handleSubtitles env fs2 id).response ∧
    (handleSubtitles env fs id).calls = (handleSubtitles env fs2 id).calls ∧
    ((handleSubtitles env fs id).response ≠ [] →
      (handleSubtitles env fs id).calls
        = [Stage.resolve, Stage.fetch, Stage.translate, Stage.save]) := by
  intro env fs fs2 id
  unfold handleSubtitles
  cases hx : extractImdb id with
  | none => exact ⟨rfl, rfl, fun h => absurd rfl h⟩
  | some pre =>
    dsimp only
    cases hr : getEnglishSubtitleFileUrl env.cat (replaceFirstTTs pre) with
    | none => exact ⟨rfl, rfl, fun h => absurd rfl h⟩
    | some url =>
      dsimp only
      cases hf : env.fetchText url with
      | none => exact ⟨rfl, rfl, fun h => absurd rfl h⟩
      | some srt =>
        dsimp only
        by_cases hs : srt = ""
        · rw [if_pos hs, if_pos hs]
          exact ⟨rfl, rfl, fun h => absurd rfl h⟩
        · rw [if_neg hs, if_neg hs]
          cases ht : (translateToHebrewT env.translateCall srt).1 with
          | none => exact ⟨rfl, rfl, fun h => absurd rfl h⟩
          | some heb =>
            dsimp only
            rw [saveSubtitleToFile_ret env.writeFails fs heb (sanitizeId id),
              saveSubtitleToFile_ret env.writeFails fs2 heb (sanitizeId id)]
            by_cases hw : ((subFilePath (sanitizeId id)).data.contains '/'
                || env.writeFails (subFilePath (sanitizeId id))) = true
            · rw [if_pos hw]
              exact ⟨rfl, rfl, fun h => absurd rfl h⟩
            · rw [if_neg hw]
              exact ⟨rfl, rfl, fun _ => rfl⟩

/-- Witness for C1 amended: a concrete successful call runs all four stages. -/
theorem c1_witness :
    (handleSubtitles env1 fsEmpty "tt1").calls
      = [Stage.resolve, Stage.fetch, Stage.translate, Stage.save] :=
  (c1_theorem env1 fsEmpty fsEmpty "tt1").2.2 (by decide)

/-- C3: the handler is a total function whose answer is always a well-formed
subtitles list — either the empty result, or a singleton success which is only
possible when the id was valid and every stage (resolve, fetch, non-empty
body, translate, write) succeeded.  Contrapositively, a failure at any stage
forces the empty result `{subtitles: []}`, and no failure can escape as a
fault. -/
theorem c3_theorem : ∀ (env : Env) (fs : FileSystem) (id : String),
    (handleSubtitles env fs id).response = [] ∨
    ((handleSubtitles env fs id).response.length = 1 ∧
     ∃ pre url srt heb,
       extractImdb id = some pre ∧
       getEnglishSubtitleFileUrl env.cat (replaceFirstTTs pre) = some url ∧
       env.fetchText url = some srt ∧ srt ≠ "" ∧
       (translateToHebrewT env.translateCall srt).1 = some heb ∧
       env.writeFails (subFilePath (sanitizeId id)) = false) := by
  intro env fs id
  unfold handleSubtitles
  cases hx : extractImdb id with
  | none => exact Or.inl rfl
  | some pre =>
    dsimp only
    cases hr : getEnglishSubtitleFileUrl env.cat (replaceFirstTTs pre) with
    | none => exact Or.inl rfl
    | some url =>
      dsimp only
      cases hf : env.fetchText url with
      | none => exact Or.inl rfl
      | some srt =>
        dsimp only
        by_cases hs : srt = ""
        · rw [if_pos hs]
          exact Or.inl rfl
        · rw [if_neg hs]
          cases ht : (translateToHebrewT env.translateCall srt).1 with
          | none => exact Or.inl rfl
          | some heb =>
            dsimp only
            rw [saveSubtitleToFile_ret env.writeFails fs heb (sanitizeId id)]
            by_cases hw : ((subFilePath (sanitizeId id)).data.contains '/'
                || env.writeFails (subFilePath (sanitizeId id))) = true
            · rw [if_pos hw]
              exact Or.inl rfl
            · rw [if_neg hw]
              have hwf : env.writeFails (subFilePath (sanitizeId id)) = false := by
                cases h : env.writeFails (subFilePath (sanitizeId id))
                · rfl
                · exact absurd (by rw [h]; simp) hw
              exact Or.inr ⟨rfl, pre, url, srt, heb, rfl, hr, hf, hs, ht, hwf⟩

/-- C4 counterexample: a fetched body of five bytes with no `-->` timing
separator is not rejected — it is submitted to the translation service and the
request even ends in success. -/
theorem c4_counterexample :
    hasTimingSep "hello" = false ∧
    ("hello").data.length = 5 ∧
    (handleSubtitles env2 fsEmpty "tt1").sent = ["hello"] ∧
    (handleSubtitles env2 fsEmpty "tt1").response ≠ [] := by decide

/-- C4 amended: the fetch stage performs no structural validation.  A failed
download or an empty-string body yields the empty result, but any other
fetched text — of any byte length, with or without a timing separator — is
forwarded verbatim to the Translator (whose only own check rejects
whitespace-only text). -/
theorem c4_theorem : ∀ (env : Env) (fs : FileSystem) (id pre url srt : String),
    extractImdb id = some pre →
    getEnglishSubtitleFileUrl env.cat (replaceFirstTTs pre) = some url →
    env.fetchText url = some srt → srt ≠ "" → isBlankStr srt = false →
    (handleSubtitles env fs id).sent = [srt] := by
  intro env fs id pre url srt hx hr hf hs hb
  unfold handleSubtitles
  rw [hx]
  dsimp only
  rw [hr]
  dsimp only
  rw [hf]
  dsimp only
  rw [if_neg hs]
  have ht : translateToHebrewT env.translateCall srt = (env.translateCall srt, [srt]) := by
    simp [translateToHebrewT, hb]
  rw [ht]
  dsimp only
  cases hc : env.translateCall srt with
  | none => rfl
  | some heb =>
    dsimp only
    rw [saveSubtitleToFile_ret env.writeFails fs heb (sanitizeId id)]
    by_cases hw : ((subFilePath (sanitizeId id)).data.contains '/'
        || env.writeFails (subFilePath (sanitizeId id))) = true
    · rw [if_pos hw]
    · rw [if_neg hw]

/-- Witness for C4 amended: the five-byte separator-free body is forwarded. -/
theorem c4_witness : (handleSubtitles env2 fsEmpty "tt1").sent = ["hello"] :=
  c4_theorem env2 fsEmpty "tt1" "tt1" "http://dl/x" "hello"
    (by decide) (by decide) rfl (by decide) (by decide)

/-- Whenever the inbound id matches the handler's regex, every branch of the
pipeline submits exactly one catalog search, for the prefix-stripped match. -/
theorem handleSubtitles_queried (env : Env) (fs : FileSystem) (id pre : String)
    (h : extractImdb id = some pre) :
    (handleSubtitles env fs id).queried = [replaceFirstTTs pre] := by
  unfold handleSubtitles
  rw [h]
  dsimp only
  cases hr : getEnglishSubtitleFileUrl env.cat (replaceFirstTTs pre) with
  | none => rfl
  | some url =>
    dsimp only
    cases hf : env.fetchText url with
    | none => rfl
    | some srt =>
      dsimp only
      by_cases hs : srt = ""
      · rw [if_pos hs]
      · rw [if_neg hs]
        cases ht : (translateToHebrewT env.translateCall srt).1 with
        | none => rfl
        | some heb =>
          dsimp only
          rw [saveSubtitleToFile_ret env.writeFails fs heb (sanitizeId id)]
          by_cases hw : ((subFilePath (sanitizeId id)).data.contains '/'
              || env.writeFails (subFilePath (sanitizeId id))) = true
          · rw [if_pos hw]
          · rw [if_neg hw]

/-- C10: for every series-episode id `tt` + digits + `:` + suffix, the catalog
search receives exactly the bare digit run — the `tt` prefix and the whole
season/episode suffix are stripped — so all episodes of one series issue the
identical catalog query, while the sanitized cache file names of distinct
episodes differ. -/
theorem c10_theorem : ∀ (env : Env) (fs : FileSystem) (ds rest : List Char),
    ds ≠ [] → (∀ c ∈ ds, c.isDigit = true) →
    ((handleSubtitles env fs (List.asString ('t' :: 't' :: (ds ++ ':' :: rest)))).queried
        = [List.asString ds] ∧
     sanitizeId "tt0111161:1:2" ≠ sanitizeId "tt0111161:1:3") := by
  intro env fs ds rest hne hdig
  constructor
  · have hx : extractImdb (List.asString ('t' :: 't' :: (ds ++ ':' :: rest)))
        = some (List.asString ('t' :: 't' :: ds)) := by
      unfold extractImdb
      rw [show (List.asString ('t' :: 't' :: (ds ++ ':' :: rest))).data
          = 't' :: 't' :: (ds ++ ':' :: rest) from rfl]
      rw [show extractImdbL ('t' :: 't' :: (ds ++ ':' :: rest))
          = (let l2 := (ds ++ ':' :: rest).takeWhile Char.isDigit;
             if l2.isEmpty then none else some ('t' :: 't' :: l2)) from rfl]
      rw [takeWhile_digits_append ds hdig ':' rest (by decide)]
      rw [if_neg (by simp [List.isEmpty_iff, hne])]
      rfl
    rw [handleSubtitles_queried env fs _ _ hx]
    rw [show replaceFirstTTs (List.asString ('t' :: 't' :: ds)) = List.asString ds from rfl]
  · decide

/-- Witness for C10 at the concrete episode id `tt1:1:2`. -/
theorem c10_witness :
    (handleSubtitles env1 fsEmpty (List.asString ['t', 't', '1', ':', '1', ':', '2'])).queried
      = [List.asString ['1']] :=
  (c10_theorem env1 fsEmpty ['1'] ['1', ':', '2'] (by decide) (by decide)).1
